import Mathlib

/-!
Shallow embedding of the guitar input pipeline of `puc-projeto-micro`:
`src/jogo/comunicacao/guitarra/listenerguitarra.py` (class `ListenerGuitarra`)
and `src/jogo/comunicacao/guitarra/interfaceguitarra.py` (class
`InterfaceGuitarra`), together with the small parts of the missing files
`comunicacao/base.py` and `comunicacao/nota_processada.py` that those two
classes use (modelled from the spec, and marked as such).

Modelling conventions:
* Python `float` values are modelled as exact rationals `ℚ`.  Every numeric
  value the pipeline manipulates (codes parsed from decimal digit strings,
  tolerances in `[0, 0.5]`, integer binding codes) is exactly representable
  as an IEEE double in the magnitudes the program works with, so `ℚ` is a
  faithful value model for these operations.
* A Python exception escaping a piece of code is modelled by returning the
  state as it was at the moment of the raise together with `some err`;
  mutations performed before the raise persist, exactly as in Python.
* One iteration of the polling loop receives the result of
  `self._input_port.readline().decode()` as an `Option String`:
  `Option.none` models a `UnicodeDecodeError` (the `except` branch does
  `continue`), `some s` the decoded text line.
* Python threads are modelled by instrumenting the listener state with the
  identity of the current worker thread (`thread`, mirroring `self._thread`)
  plus ghost counters: `spawns` (how many threads were ever started) and
  `live` (threads started and not yet joined, an upper bound for the number
  of polling threads alive).
-/

/-- Python exceptions that the embedded code can raise. -/
inductive PyErr where
  | valueError
  | keyError
  | runtimeError
deriving DecidableEq, Repr

/-- Dataclass `NotaGuitarra` of `listenerguitarra.py`: one decoded raw sample,
`codigo` the sensor code, `on` whether the line signals a press. -/
structure NotaGuitarra where
  codigo : ℚ
  «on» : Bool
deriving DecidableEq, Repr

/-- Modelled from the spec: `NotaProcessada` (§3 `ResolvedNote`, value type
`{name, on}`); its source file `comunicacao/nota_processada.py` is not under
`src/`, but `interfaceguitarra.py` constructs it with keyword arguments
`nome` and `on`. -/
structure NotaProcessada where
  nome : String
  «on» : Bool
deriving DecidableEq, Repr

/-- Python text is handled at the character-list level (`String.data`), so
that every string operation below is structurally recursive and
kernel-computable. -/
abbrev PyChars := List Char

/-- Python `str.split(';')`: cut at every `;`, keeping empty pieces, with
`"".split(';') = ['']`. -/
def pySplitSemicolon : PyChars → List PyChars
  | [] => [[]]
  | c :: rest =>
    if c = ';' then
      [] :: pySplitSemicolon rest
    else
      match pySplitSemicolon rest with
      | campo :: demais => (c :: campo) :: demais
      | [] => [[c]]

/-- The whitespace characters Python `str.strip()` removes; the wire format
only produces ASCII whitespace. -/
def pyWhitespaceChar (c : Char) : Bool :=
  c = ' ' || c = '\t' || c = '\n' || c = '\r' || c = '\x0b' || c = '\x0c'

/-- Python `str.strip()` as used on the `;`-separated fields: drop
whitespace from both ends. -/
def pyStrip (cs : PyChars) : PyChars :=
  ((cs.dropWhile pyWhitespaceChar).reverse.dropWhile pyWhitespaceChar).reverse

/-- Characters of Unicode category Other-Number / Letter-Number that
`str.isnumeric()` accepts although `float()` cannot parse them.  This is a
representative finite part of the Unicode table (vulgar fractions and
superscript digits); the real table is larger but these suffice for the
lines considered here. -/
def pyOtherNumericChar (c : Char) : Bool :=
  c = '½' || c = '¼' || c = '¾' || c = '¹' || c = '²' || c = '³'

/-- Python `str.isnumeric()`: non-empty and every character has the Unicode
numeric property (decimal digits, plus the Other-Number characters above). -/
def pyIsNumeric (cs : PyChars) : Bool :=
  !cs.isEmpty && cs.all (fun c => c.isDigit || pyOtherNumericChar c)

/-- Python `float(s)` applied to a string that passed `str.isnumeric()`:
it succeeds exactly when every character is a decimal digit, giving the
base-10 value, and raises `ValueError` on the remaining numeric characters
(for example `float('½')` raises).  The value is the exact rational; IEEE
rounding above `2^53` is outside the magnitudes this pipeline sees. -/
def pyFloatOfNumeric (cs : PyChars) : Option ℚ :=
  if cs.all Char.isDigit then
    some ((cs.foldl (fun n c => 10 * n + (c.toNat - '0'.toNat)) 0 : ℕ) : ℚ)
  else
    Option.none

/-- Python `str.startswith('1')`. -/
def pyStartsWithOne : PyChars → Bool
  | c :: _ => c = '1'
  | [] => false

/-- Decoding of one text line into a raw sample, mirroring the body of
`ListenerGuitarra._loop` (lines 107-118): split on `;`, strip each field,
require exactly two fields, require `str.isnumeric` of field 0, convert it
with `float` (the only raise point), require field 1 to be literally `"1"`
or `"0"`, and set `on` via `startswith('1')`.  `.ok Option.none` models the
three `continue` guards (the line is silently dropped). -/
def parseLinha (linha : String) : Except PyErr (Option NotaGuitarra) :=
  match (pySplitSemicolon linha.data).map pyStrip with
  | [identificadorRaw, pressionadoRaw] =>
    if pyIsNumeric identificadorRaw = false then
      .ok Option.none
    else
      match pyFloatOfNumeric identificadorRaw with
      | Option.none => .error PyErr.valueError
      | some codigo =>
        if pressionadoRaw ≠ ['1'] ∧ pressionadoRaw ≠ ['0'] then
          .ok Option.none
        else
          .ok (some ⟨codigo, pyStartsWithOne pressionadoRaw⟩)
  | _ => .ok Option.none

/-- State of one `ListenerGuitarra` instance (`__init__`, lines 29-38).
`κ` is the type of registered callbacks (kept abstract: dispatch records
which callback is invoked with which sample).  `thread`, `spawns` and
`live` instrument `self._thread` per the modelling conventions above;
`inputPort` models `self._input_port` as an opaque handle. -/
structure ListenerState (κ : Type) where
  callbacks : List κ
  range : ℚ
  running : Bool
  thread : Option ℕ
  spawns : ℕ
  live : ℕ
  inputPort : Option ℕ
  notaBuffer : Option NotaGuitarra
deriving DecidableEq, Repr

/-- The state `ListenerGuitarra.__init__` builds: no port, no callbacks,
range `0.5`, not running, no thread, empty buffer. -/
def initListener (κ : Type) : ListenerState κ :=
  { callbacks := []
    range := 1/2
    running := false
    thread := Option.none
    spawns := 0
    live := 0
    inputPort := Option.none
    notaBuffer := Option.none }

/-- Python values that can be handed to the `range` setter.  `isinstance(v,
float)` holds only for `float`; Python `int` and `bool` are numeric but not
`float`. -/
inductive PyVal where
  | float (q : ℚ)
  | int (n : ℤ)
  | str (s : String)
  | pyNone
deriving DecidableEq, Repr

/-- Whether a `PyVal` is numeric in Python's sense (`int` or `float`). -/
def PyVal.isNumericVal : PyVal → Bool
  | .float _ => true
  | .int _ => true
  | _ => false

/-- The numeric value of a numeric `PyVal`. -/
def PyVal.toRat : PyVal → ℚ
  | .float q => q
  | .int n => (n : ℚ)
  | _ => 0

/-- The `range` property setter (lines 44-52): only `float` values are
considered; values above `0.5` are stored as `0.5`, values below `0` as
`0`, in-range values as given; any non-`float` value leaves the stored
range untouched. -/
def rangeSetter (st : ListenerState κ) (value : PyVal) : ListenerState κ :=
  match value with
  | .float q =>
    if q > 1/2 then { st with range := 1/2 }
    else if q < 0 then { st with range := 0 }
    else { st with range := q }
  | _ => st

/-- The `input_port` setter (lines 58-76): after opening/validation it
replaces the held handle under the lock (closing the old one, a side effect
on the port object itself). -/
def inputPortSetter (st : ListenerState κ) (port : ℕ) : ListenerState κ :=
  { st with inputPort := some port }

/-- The `callback` property setter (lines 82-89): appends `func` to
`self._callbacks` under the lock. -/
def callbackSetter (st : ListenerState κ) (func : κ) : ListenerState κ :=
  { st with callbacks := st.callbacks ++ [func] }

/-- Method `ListenerGuitarra.stop` (lines 91-94): its entire body is
`with self._lock: pass` — it acquires and releases the lock and changes
nothing. -/
def stopOp (st : ListenerState κ) : ListenerState κ :=
  st

/-- Method `ListenerGuitarra.start` (lines 131-137): guarded by
`not self._running and self._thread is None`; when the guard passes it sets
the running flag and spawns the polling thread (`live` gains the new
un-joined thread), otherwise it is a no-op. -/
def startOp (st : ListenerState κ) : ListenerState κ :=
  if st.running = false ∧ st.thread = Option.none then
    { st with
        running := true
        thread := some st.spawns
        spawns := st.spawns + 1
        live := st.live + 1 }
  else
    st

/-- Method `ListenerGuitarra.close` (lines 139-145): if running, under the lock it
clears the running flag, joins the worker thread (`live` loses it) and
drops the handle; otherwise it is a no-op. -/
def closeOp (st : ListenerState κ) : ListenerState κ :=
  if st.running = true then
    { st with
        running := false
        thread := Option.none
        live := st.live - 1 }
  else
    st

/-- One iteration of the polling loop `ListenerGuitarra._loop`
(lines 98-129) on an already-read line.  Returns the new state, the list of
callback invocations performed (callback, argument) in order, and the
exception escaping the iteration if any.  A decode failure or a dropped
line leaves the state untouched and dispatches nothing; an accepted sample
is dispatched to every callback exactly when a buffered previous sample
exists, `|previous.codigo - current.codigo| < range` and the `on` flag
flipped; the buffer is then overwritten with the current sample
unconditionally. -/
def loopIter (st : ListenerState κ) (linha? : Option String) :
    ListenerState κ × List (κ × NotaGuitarra) × Option PyErr :=
  match linha? with
  | Option.none => (st, [], Option.none)
  | some linha =>
    match parseLinha linha with
    | .error e => (st, [], some e)
    | .ok Option.none => (st, [], Option.none)
    | .ok (some ret) =>
      let calls : List (κ × NotaGuitarra) :=
        match st.notaBuffer with
        | some buf =>
          if |buf.codigo - ret.codigo| < st.range ∧ buf.«on» ≠ ret.«on» then
            st.callbacks.map (fun c => (c, ret))
          else
            []
        | Option.none => []
      ({ st with notaBuffer := some ret }, calls, Option.none)

/-- Python `int()` applied to a (finite) `float`: truncation toward zero.
On a finite float value this never raises, so the
`except ValueError: raise RuntimeError` branch of
`InterfaceGuitarra.atribui_notas` is unreachable for the float codes its
callers pass. -/
def pyIntTrunc (q : ℚ) : ℤ :=
  q.num.tdiv (q.den : ℤ)

/-- A Python `dict` whose keys are numbers, as an insertion-ordered
association list.  Python compares keys with `==`, under which `int` and
`float` keys of equal numeric value collide, so keys are modelled as the
exact numeric value `ℚ`. -/
abbrev PyNumDict := List (ℚ × String)

/-- Python `d[k] = v` on a numeric-keyed dict: overwrite in place when an
equal key exists, append otherwise. -/
def dictInsert (d : PyNumDict) (k : ℚ) (v : String) : PyNumDict :=
  if d.any (fun p => p.1 = k) then
    d.map (fun p => if p.1 = k then (k, v) else p)
  else
    d ++ [(k, v)]

/-- Python `d[k]` lookup on a numeric-keyed dict (first — and with unique
keys, only — entry whose key compares `==` to `k`); `Option.none` models a
`KeyError`. -/
def pyDictGet (d : PyNumDict) (k : ℚ) : Option String :=
  (d.find? (fun p => p.1 = k)).map (fun p => p.2)

/-- Modelled from the spec: `InterfaceBase.atribui_notas` of
`comunicacao/base.py`, which is not under `src/`.  Per spec §3/§4.2 the
configuration is a binding table from logical note names to numeric codes;
`InterfaceGuitarra` reads `self._dicionario` back keyed by code
(`self._dicionario[valor]` yields the note name in `_callback`, and
`int(key)` is applied to its keys in `atribui_notas`), so the base class
stores the bindings as a dict from each keyword argument's numeric value to
its name. -/
def baseAtribuiNotas (kwargs : List (String × ℚ)) : PyNumDict :=
  kwargs.foldl (fun d p => dictInsert d p.2 p.1) []

/-- State of one `InterfaceGuitarra` instance (`interfaceguitarra.py`,
`__init__`, lines 12-29).  The inner listener's callbacks are registrations
of the single lambda `lambda x: self._callback(x)`, recorded as `Unit`
entries.  `range` is `self._range`, `dicionario` the inherited
`self._dicionario`, `valores` the list `self._valores_dicionario`. -/
structure InterfaceGuitarraSt where
  listener : ListenerState Unit
  dicionario : PyNumDict
  valores : List ℤ
  range : ℚ
deriving DecidableEq, Repr

/-- Constructor `InterfaceGuitarra.__init__`: raises `RuntimeError` unless
`0 < rangen <= 0.5` (for a float `rangen`); otherwise starts with a fresh
idle listener, an empty binding dict and an empty code list. -/
def mkInterfaceGuitarra (rangen : ℚ) : Except PyErr InterfaceGuitarraSt :=
  if 0 < rangen ∧ rangen ≤ 1/2 then
    .ok { listener := initListener Unit
          dicionario := []
          valores := []
          range := rangen }
  else
    .error PyErr.runtimeError

/-- Method `InterfaceGuitarra.atribui_notas` (lines 31-37): the base class stores
the bindings (modelled above), then `int(key)` of every dict key is
appended to `self._valores_dicionario`.  For float keys `int()` truncates
and never raises, so the `ValueError → RuntimeError` re-raise is dead code
here. -/
def atribuiNotas (ist : InterfaceGuitarraSt) (kwargs : List (String × ℚ)) :
    InterfaceGuitarraSt :=
  let d := baseAtribuiNotas kwargs
  { ist with
      dicionario := d
      valores := ist.valores ++ d.map (fun p => pyIntTrunc p.1) }

/-- The scan of `InterfaceGuitarra._callback` (lines 39-51) over
`self._valores_dicionario`: for each stored code `valor`, if
`|nota.codigo - valor| <= self._range` the user callback receives
`NotaProcessada(nome=self._dicionario[valor], on=nota.on)`.  Returns the
emissions performed in order and the exception escaping the scan, if any
(`KeyError` when `self._dicionario[valor]` misses); emissions made before a
raise persist. -/
def resolveLoop (d : PyNumDict) (rng : ℚ) (nota : NotaGuitarra) :
    List ℤ → List NotaProcessada × Option PyErr
  | [] => ([], Option.none)
  | valor :: demais =>
    if |nota.codigo - (valor : ℚ)| ≤ rng then
      match pyDictGet d (valor : ℚ) with
      | Option.none => ([], some PyErr.keyError)
      | some nome =>
        let r := resolveLoop d rng nota demais
        (⟨nome, nota.«on»⟩ :: r.1, r.2)
    else
      resolveLoop d rng nota demais

/-- Method `InterfaceGuitarra._callback` on one raw sample: the scan above over
the instance's own dict, range and code list. -/
def interfaceCallback (ist : InterfaceGuitarraSt) (nota : NotaGuitarra) :
    List NotaProcessada × Option PyErr :=
  resolveLoop ist.dicionario ist.range nota ist.valores

/-- Method `InterfaceGuitarra.start` (lines 53-60): registers
`lambda x: self._callback(x)` as one more listener callback, assigns the
serial port, and forwards `start()` to the listener. -/
def interfaceStart (ist : InterfaceGuitarraSt) : InterfaceGuitarraSt :=
  { ist with
      listener :=
        startOp (inputPortSetter (callbackSetter ist.listener ()) 0) }

/-- The user-callback invocations performed when the listener dispatches
the recorded calls: every registered callback is the same
`lambda x: self._callback(x)`, so each call record feeds its sample to
`_callback`; the emissions concatenate in dispatch order. -/
def userEmissions (ist : InterfaceGuitarraSt)
    (calls : List (Unit × NotaGuitarra)) : List NotaProcessada :=
  calls.flatMap (fun c => (interfaceCallback ist c.2).1)

/-- The operations a caller (or the polling thread) can perform on one
listener instance, for stating lifecycle invariants over arbitrary call
sequences. -/
inductive ListenerOp (κ : Type) where
  | start
  | stop
  | close
  | setRange (value : PyVal)
  | regCallback (func : κ)
  | setPort (port : ℕ)
  | feedLine (linha? : Option String)

/-- Apply one listener operation to the state (for `feedLine`, the state
component of one polling-loop iteration). -/
def applyOp (st : ListenerState κ) : ListenerOp κ → ListenerState κ
  | .start => startOp st
  | .stop => stopOp st
  | .close => closeOp st
  | .setRange v => rangeSetter st v
  | .regCallback f => callbackSetter st f
  | .setPort p => inputPortSetter st p
  | .feedLine l => (loopIter st l).1

/-- Apply a sequence of listener operations in order. -/
def applyOps (st : ListenerState κ) (ops : List (ListenerOp κ)) :
    ListenerState κ :=
  ops.foldl applyOp st

/-- Lifecycle invariant of a listener: the number of spawned-and-not-joined
polling threads matches the held handle (0 without a handle, 1 with one),
and a running listener holds a handle. -/
def singleThreadInv (st : ListenerState κ) : Prop :=
  st.live = (if st.thread = Option.none then 0 else 1) ∧
  (st.running = true → st.thread ≠ Option.none)

/-- The two-field / numeric-code / binary-flag shape check of the wire
format, as a predicate on a decoded line: true when the line fails it
(wrong field count, first field not `str.isnumeric`, or second field other
than `"1"`/`"0"`). -/
def falhaForma (linha : String) : Bool :=
  match (pySplitSemicolon linha.data).map pyStrip with
  | [identificadorRaw, pressionadoRaw] =>
    pyIsNumeric identificadorRaw = false ∨
      (pressionadoRaw ≠ ['1'] ∧ pressionadoRaw ≠ ['0'])
  | campos => campos.length ≠ 2

/-- C1: the claim says `stop()` on a running listener flips the running
flag to false and joins the worker thread before returning, so that
afterwards no polling thread is alive.  The code contradicts it: the whole
body of `stop()` is `with self._lock: pass`, so on the running state
reached by `start()` the call changes nothing — the running flag stays
true and the spawned thread is never joined.  Only `close()` performs the
claimed teardown. -/
theorem stop_is_a_noop_close_tears_down :
    stopOp (startOp (initListener ℕ)) = startOp (initListener ℕ) ∧
    (stopOp (startOp (initListener ℕ))).running = true ∧
    (stopOp (startOp (initListener ℕ))).live = 1 ∧
    (stopOp (startOp (initListener ℕ))).thread ≠ Option.none ∧
    (closeOp (startOp (initListener ℕ))).running = false ∧
    (closeOp (startOp (initListener ℕ))).live = 0 ∧
    (closeOp (startOp (initListener ℕ))).thread = Option.none := by
  refine ⟨rfl, rfl, rfl, ?_, rfl, rfl, rfl⟩
  decide

/-- C2: if the buffered previous sample `prev` and the currently parsed
sample `cur` satisfy `prev.on ≠ cur.on` and
`|prev.codigo - cur.codigo| < range` (strict), the loop iteration
dispatches exactly one raw event equal to `cur` to every registered
callback, in registration order, and overwrites the buffer with `cur`. -/
theorem edge_dispatches_cur_to_all_callbacks {κ : Type}
    (st : ListenerState κ) (linha : String) (prev cur : NotaGuitarra)
    (hbuf : st.notaBuffer = some prev)
    (hparse : parseLinha linha = .ok (some cur))
    (htol : |prev.codigo - cur.codigo| < st.range)
    (hflip : prev.«on» ≠ cur.«on») :
    loopIter st (some linha) =
      ({ st with notaBuffer := some cur },
        st.callbacks.map (fun c => (c, cur)), Option.none) := by
  simp only [loopIter, hparse, hbuf]
  rw [if_pos ⟨htol, hflip⟩]

/-- Witness for C2: previous sample `(1, off)`, line `"1;1"`, tolerance
`0.5`, two registered callbacks — both receive `(1, on)` once, in order,
and the buffer is overwritten. -/
theorem edge_dispatches_cur_witness :
    loopIter
      (⟨[7, 8], 1/2, true, some 0, 1, 1, some 0, some ⟨1, false⟩⟩ :
        ListenerState ℕ) (some "1;1") =
      (⟨[7, 8], 1/2, true, some 0, 1, 1, some 0, some ⟨1, true⟩⟩,
        [(7, ⟨1, true⟩), (8, ⟨1, true⟩)], Option.none) :=
  edge_dispatches_cur_to_all_callbacks _ "1;1" ⟨1, false⟩ ⟨1, true⟩ rfl rfl
    (by norm_num) (by decide)

/-- C3: if the buffered previous sample `prev` and the currently parsed
sample `cur` have equal `on` flags, or `|prev.codigo - cur.codigo| ≥ range`,
the loop iteration dispatches nothing, and still unconditionally overwrites
the buffer with `cur`. -/
theorem no_edge_dispatches_nothing_buffer_overwritten {κ : Type}
    (st : ListenerState κ) (linha : String) (prev cur : NotaGuitarra)
    (hbuf : st.notaBuffer = some prev)
    (hparse : parseLinha linha = .ok (some cur))
    (hno : prev.«on» = cur.«on» ∨ |prev.codigo - cur.codigo| ≥ st.range) :
    loopIter st (some linha) =
      ({ st with notaBuffer := some cur }, [], Option.none) := by
  simp only [loopIter, hparse, hbuf]
  rw [if_neg]
  rintro ⟨h1, h2⟩
  rcases hno with h | h
  · exact h2 h
  · exact absurd h1 (not_lt.mpr h)

/-- Witness for C3 (the spec's own scenario): previous sample `(1, off)`,
line `"9;1"`, tolerance `0.5` — distance `8 ≥ 0.5`, so no event fires and
the buffer becomes `(9, on)`. -/
theorem no_edge_witness :
    loopIter
      (⟨[7, 8], 1/2, true, some 0, 1, 1, some 0, some ⟨1, false⟩⟩ :
        ListenerState ℕ) (some "9;1") =
      (⟨[7, 8], 1/2, true, some 0, 1, 1, some 0, some ⟨9, true⟩⟩,
        [], Option.none) :=
  no_edge_dispatches_nothing_buffer_overwritten _ "9;1" ⟨1, false⟩ ⟨9, true⟩
    rfl rfl (Or.inr (by norm_num))

/-- C4: the claim says one polling-loop iteration is total on every input
line, silently dropping any line whose first field is not a non-negative
integer literal.  The code contradicts it on the line `"½;1"`: the first
field `'½'` passes the `str.isnumeric()` guard, after which `float('½')`
raises an uncaught `ValueError` that kills the polling loop, instead of the
line being silently dropped. -/
theorem isnumeric_nonfloat_line_raises :
    pyIsNumeric ['½'] = true ∧
    pyFloatOfNumeric ['½'] = Option.none ∧
    loopIter (initListener ℕ) (some "½;1") =
      (initListener ℕ, [], some PyErr.valueError) :=
  ⟨rfl, rfl, rfl⟩

/-- Helper: a line failing the shape check never parses to a sample. -/
theorem parse_of_falhaForma (linha : String) (h : falhaForma linha = true) :
    ∀ ret : NotaGuitarra, parseLinha linha ≠ .ok (some ret) := by
  intro ret hE
  unfold falhaForma at h
  unfold parseLinha at hE
  rcases hm : (pySplitSemicolon linha.data).map pyStrip with
    _ | ⟨a, _ | ⟨b, _ | ⟨c, rest⟩⟩⟩ <;> rw [hm] at h hE <;> simp at h hE
  rcases h with ha | hb
  · simp [ha] at hE
  · rcases hn : pyIsNumeric a with _ | _
    · simp [hn] at hE
    · simp only [hn] at hE
      rcases hf : pyFloatOfNumeric a with _ | q
      · simp [hf] at hE
      · simp [hf, hb.1, hb.2] at hE

/-- C6: a line failing the two-field / numeric-code / binary-flag shape
check leaves the previous-sample buffer (indeed the whole listener state)
unchanged and dispatches nothing. -/
theorem noise_line_preserves_state_and_emits_nothing {κ : Type}
    (st : ListenerState κ) (linha : String)
    (h : falhaForma linha = true) :
    (loopIter st (some linha)).1 = st ∧ (loopIter st (some linha)).2.1 = [] := by
  have hp := parse_of_falhaForma linha h
  simp only [loopIter]
  rcases hE : parseLinha linha with e | o
  · exact ⟨rfl, rfl⟩
  rcases o with _ | ret
  · exact ⟨rfl, rfl⟩
  · exact absurd hE (hp ret)

/-- Witness for C6: the line `"abc;1"` (non-numeric first field) leaves a
concrete listener state untouched and emits nothing. -/
theorem noise_line_witness :
    (loopIter
      (⟨[7], 1/2, true, some 0, 1, 1, some 0, some ⟨1, false⟩⟩ :
        ListenerState ℕ) (some "abc;1")).1 =
      ⟨[7], 1/2, true, some 0, 1, 1, some 0, some ⟨1, false⟩⟩ ∧
    (loopIter
      (⟨[7], 1/2, true, some 0, 1, 1, some 0, some ⟨1, false⟩⟩ :
        ListenerState ℕ) (some "abc;1")).2.1 = [] :=
  noise_line_preserves_state_and_emits_nothing _ "abc;1" rfl

/-- C7 counterexample: the claim says the tolerance setter clamps every
input into `[0, 0.5]` (values above `0.5` pin to `0.5`) and ignores only
non-numeric inputs.  The Python `int` value `1` is numeric and above `0.5`,
yet on a listener whose stored range is `0.2` the setter leaves `0.2` in
place (the `isinstance(value, float)` guard rejects every non-`float`,
numeric or not), instead of pinning to `0.5` as claimed. -/
theorem range_setter_ignores_numeric_int :
    PyVal.isNumericVal (.int 1) = true ∧
    PyVal.toRat (.int 1) > 1/2 ∧
    (rangeSetter ({ initListener ℕ with range := 1/5 }) (.int 1)).range = 1/5 ∧
    (1 : ℚ)/5 ≠ 1/2 :=
  ⟨rfl, by norm_num [PyVal.toRat], rfl, by norm_num⟩

/-- C7 as amended: the setter clamps `float` inputs into `[0, 0.5]`
(above `0.5` pins to `0.5`, below `0` pins to `0`, in-range values are
stored as-is), and every non-`float` input — numeric `int`s and `bool`s
included — is ignored without error, leaving the stored tolerance
unchanged. -/
theorem range_setter_clamps_floats_ignores_nonfloats {κ : Type}
    (st : ListenerState κ) (q : ℚ) (v : PyVal) :
    (q > 1/2 → (rangeSetter st (.float q)).range = 1/2) ∧
    (q < 0 → (rangeSetter st (.float q)).range = 0) ∧
    (0 ≤ q → q ≤ 1/2 → (rangeSetter st (.float q)).range = q) ∧
    ((∀ p : ℚ, v ≠ .float p) → rangeSetter st v = st) := by
  refine ⟨?_, ?_, ?_, ?_⟩
  · intro h
    simp only [rangeSetter]
    rw [if_pos h]
  · intro h
    simp only [rangeSetter]
    rw [if_neg (by linarith), if_pos h]
  · intro h0 hhalf
    simp only [rangeSetter]
    rw [if_neg (not_lt.mpr hhalf), if_neg (not_lt.mpr h0)]
  · intro h
    cases v with
    | float p => exact absurd rfl (h p)
    | int n => rfl
    | str s => rfl
    | pyNone => rfl

/-- Witness for C7's amended claim: `2.0` pins to `0.5`, `-1.0` pins to
`0`, `0.25` is stored as-is, and the `int` `3` is ignored. -/
theorem range_setter_amended_witness :
    (rangeSetter (initListener ℕ) (.float 2)).range = 1/2 ∧
    (rangeSetter (initListener ℕ) (.float (-1))).range = 0 ∧
    (rangeSetter (initListener ℕ) (.float (1/4))).range = 1/4 ∧
    rangeSetter (initListener ℕ) (.int 3) = initListener ℕ :=
  ⟨(range_setter_clamps_floats_ignores_nonfloats (initListener ℕ) 2
      (.int 3)).1 (by norm_num),
    (range_setter_clamps_floats_ignores_nonfloats (initListener ℕ) (-1)
      (.int 3)).2.1 (by norm_num),
    (range_setter_clamps_floats_ignores_nonfloats (initListener ℕ) (1/4)
      (.int 3)).2.2.1 (by norm_num) (by norm_num),
    (range_setter_clamps_floats_ignores_nonfloats (initListener ℕ) 0
      (.int 3)).2.2.2 (by intro p h; cases h)⟩

/-- Helper: the freshly constructed listener satisfies the lifecycle
invariant. -/
theorem singleThreadInv_init (κ : Type) : singleThreadInv (initListener κ) := by
  constructor <;> simp [initListener, singleThreadInv]

/-- Helper: every listener operation preserves the lifecycle invariant. -/
theorem singleThreadInv_applyOp {κ : Type} (st : ListenerState κ)
    (op : ListenerOp κ) (h : singleThreadInv st) :
    singleThreadInv (applyOp st op) := by
  obtain ⟨h1, h2⟩ := h
  cases op with
  | start =>
    simp only [applyOp, startOp]
    split
    · rename_i hg
      obtain ⟨hr, ht⟩ := hg
      have hl : st.live = 0 := by simpa [ht] using h1
      constructor
      · simp [hl]
      · intro _
        simp
    · exact ⟨h1, h2⟩
  | stop => exact ⟨h1, h2⟩
  | close =>
    simp only [applyOp, closeOp]
    split
    · rename_i hr
      have ht := h2 hr
      rw [if_neg ht] at h1
      constructor
      · simp [h1]
      · intro hfalse
        simp at hfalse
    · exact ⟨h1, h2⟩
  | setRange v =>
    cases v with
    | float q =>
      simp only [applyOp, rangeSetter]
      split
      · exact ⟨h1, h2⟩
      · split
        · exact ⟨h1, h2⟩
        · exact ⟨h1, h2⟩
    | int n => exact ⟨h1, h2⟩
    | str s => exact ⟨h1, h2⟩
    | pyNone => exact ⟨h1, h2⟩
  | regCallback f => exact ⟨h1, h2⟩
  | setPort p => exact ⟨h1, h2⟩
  | feedLine l =>
    cases l with
    | none => exact ⟨h1, h2⟩
    | some linha =>
      simp only [applyOp, loopIter]
      cases hE : parseLinha linha with
      | error e => exact ⟨h1, h2⟩
      | ok o =>
        cases o with
        | none => exact ⟨h1, h2⟩
        | some ret => exact ⟨h1, h2⟩

/-- Helper: the lifecycle invariant holds along every operation sequence. -/
theorem singleThreadInv_applyOps {κ : Type} (st : ListenerState κ)
    (ops : List (ListenerOp κ)) (h : singleThreadInv st) :
    singleThreadInv (applyOps st ops) := by
  induction ops generalizing st with
  | nil => exact h
  | cons op rest ih => exact ih _ (singleThreadInv_applyOp st op h)

/-- C8: `start()` is idempotent by guard — on an already-running listener
it is a no-op; starting twice from the fresh state equals starting once and
leaves exactly one un-joined polling thread; and along every sequence of
listener operations from the fresh state, at most one polling thread is
alive. -/
theorem start_idempotent_single_thread (κ : Type) :
    (∀ st : ListenerState κ, st.running = true → startOp st = st) ∧
    startOp (startOp (initListener κ)) = startOp (initListener κ) ∧
    (startOp (initListener κ)).live = 1 ∧
    (∀ ops : List (ListenerOp κ), (applyOps (initListener κ) ops).live ≤ 1) := by
  have hrun : ∀ st : ListenerState κ, st.running = true → startOp st = st := by
    intro st h
    simp only [startOp]
    rw [if_neg]
    rintro ⟨h1, _⟩
    rw [h] at h1
    cases h1
  refine ⟨hrun, hrun _ rfl, rfl, ?_⟩
  intro ops
  obtain ⟨h1, -⟩ := singleThreadInv_applyOps (initListener κ) ops
    (singleThreadInv_init κ)
  rw [h1]
  split <;> norm_num

/-- Witness for C8: a second `start()` on a concrete running listener
changes nothing, and a concrete operation sequence with two `start()`s and
an interleaved (no-op) `stop()` ends with a single live thread. -/
theorem start_idempotent_witness :
    startOp
      (⟨[], 1/2, true, some 0, 1, 1, Option.none, Option.none⟩ :
        ListenerState ℕ) =
      ⟨[], 1/2, true, some 0, 1, 1, Option.none, Option.none⟩ ∧
    (applyOps (initListener ℕ) [.start, .stop, .start]).live ≤ 1 :=
  ⟨(start_idempotent_single_thread ℕ).1 _ rfl,
    (start_idempotent_single_thread ℕ).2.2.2 _⟩

/-- Helper: inserting an absent key appends it. -/
theorem dictInsert_of_not_mem (d : PyNumDict) (k : ℚ) (v : String)
    (h : ∀ q ∈ d, q.1 ≠ k) : dictInsert d k v = d ++ [(k, v)] := by
  unfold dictInsert
  rw [if_neg]
  simp only [List.any_eq_true, decide_eq_true_eq, not_exists]
  intro q
  rintro ⟨hq, hqk⟩
  exact h q hq hqk

/-- Helper: with pairwise distinct codes, the modelled base `atribui_notas`
stores exactly the value-to-name reversal of the keyword arguments, in
order. -/
theorem baseAtribui_foldl (kwargs : List (String × ℚ)) (acc : PyNumDict)
    (hdisj : ∀ p ∈ kwargs, ∀ q ∈ acc, q.1 ≠ p.2)
    (hnd : (kwargs.map Prod.snd).Nodup) :
    kwargs.foldl (fun d p => dictInsert d p.2 p.1) acc
      = acc ++ kwargs.map (fun p => (p.2, p.1)) := by
  induction kwargs generalizing acc with
  | nil => simp
  | cons p rest ih =>
    rw [List.map_cons] at hnd
    have hnd2 := List.nodup_cons.mp hnd
    rw [List.foldl_cons,
      dictInsert_of_not_mem acc p.2 p.1
        (fun q hq => hdisj p (List.mem_cons_self _ _) q hq),
      ih (acc ++ [(p.2, p.1)]) ?_ hnd2.2]
    · simp
    · intro r hr q hq
      rcases List.mem_append.mp hq with hq | hq
      · exact hdisj r (List.mem_cons_of_mem _ hr) q hq
      · have hq2 : q = (p.2, p.1) := by simpa using hq
        subst hq2
        intro he
        apply hnd2.1
        have he2 : p.2 = r.2 := he
        rw [he2]
        exact List.mem_map_of_mem Prod.snd hr

/-- Helper: in a dict with pairwise distinct keys, looking up the key of a
stored entry yields its value. -/
theorem pyDictGet_of_mem (d : PyNumDict) (hnd : (d.map Prod.fst).Nodup)
    (p : ℚ × String) (hp : p ∈ d) : pyDictGet d p.1 = some p.2 := by
  induction d with
  | nil => cases hp
  | cons q rest ih =>
    rw [List.map_cons] at hnd
    have hnd2 := List.nodup_cons.mp hnd
    rcases List.mem_cons.mp hp with h | h
    · subst h
      unfold pyDictGet
      rw [List.find?_cons_of_pos _ (by simp)]
      rfl
    · have hne : ¬ ((fun r : ℚ × String => decide (r.1 = p.1)) q = true) := by
        simp only [decide_eq_true_eq]
        intro he
        exact hnd2.1 (he ▸ List.mem_map_of_mem Prod.fst h)
      have hstep :
          List.find? (fun r : ℚ × String => decide (r.1 = p.1)) (q :: rest)
            = List.find? (fun r : ℚ × String => decide (r.1 = p.1)) rest :=
        List.find?_cons_of_neg rest hne
      unfold pyDictGet at ih ⊢
      rw [hstep]
      exact ih hnd2.2 h

/-- Helper: the `_callback` scan over codes obtained by truncating integral
dict keys emits, in table order, one resolved note per stored binding whose
key is within tolerance of the sample's code, and raises nothing. -/
theorem resolveLoop_characterization (d : PyNumDict) (rng : ℚ)
    (nota : NotaGuitarra) (ds : List (ℚ × String))
    (h : ∀ p ∈ ds, (pyIntTrunc p.1 : ℚ) = p.1 ∧ pyDictGet d p.1 = some p.2) :
    resolveLoop d rng nota (ds.map (fun p => pyIntTrunc p.1)) =
      ((ds.filter (fun p => |nota.codigo - p.1| ≤ rng)).map
        (fun p => ⟨p.2, nota.«on»⟩), Option.none) := by
  induction ds with
  | nil => rfl
  | cons p rest ih =>
    have hp := h p (List.mem_cons_self _ _)
    have hrest := ih (fun q hq => h q (List.mem_cons_of_mem _ hq))
    simp only [List.map_cons, resolveLoop, hp.1, hp.2, List.filter_cons]
    by_cases hc : |nota.codigo - p.1| ≤ rng
    · rw [if_pos hc, if_pos (decide_eq_true hc), hrest]
      rfl
    · rw [if_neg hc, if_neg (by simpa using hc), hrest]

/-- C5: after configuring the resolver with bindings whose codes are
integral and pairwise distinct, `_callback` on a raw sample emits — in
binding order — exactly one `NotaProcessada` carrying the bound name and
the sample's `on` flag for each binding whose code is within the resolver
tolerance of the sample's code, and no exception escapes. -/
theorem resolver_emits_exactly_matching_bindings
    (kwargs : List (String × ℚ)) (ist₀ : InterfaceGuitarraSt)
    (nota : NotaGuitarra)
    (hv : ist₀.valores = [])
    (hints : ∀ p ∈ kwargs, (pyIntTrunc p.2 : ℚ) = p.2)
    (hnd : (kwargs.map Prod.snd).Nodup) :
    interfaceCallback (atribuiNotas ist₀ kwargs) nota =
      ((kwargs.filter (fun p => |nota.codigo - p.2| ≤ ist₀.range)).map
        (fun p => ⟨p.1, nota.«on»⟩), Option.none) := by
  have hbase : baseAtribuiNotas kwargs = kwargs.map (fun p => (p.2, p.1)) := by
    unfold baseAtribuiNotas
    rw [baseAtribui_foldl kwargs [] (by simp) hnd]
    simp
  have hkeys : ((kwargs.map (fun p => (p.2, p.1))).map Prod.fst).Nodup := by
    simpa [List.map_map, Function.comp] using hnd
  unfold interfaceCallback atribuiNotas
  simp only [hbase, hv, List.nil_append]
  rw [resolveLoop_characterization (kwargs.map (fun p => (p.2, p.1))) ist₀.range
    nota (kwargs.map (fun p => (p.2, p.1))) ?_]
  · rw [List.filter_map, List.map_map]
    rfl
  · intro p hp
    obtain ⟨r, hr, hrp⟩ := List.mem_map.mp hp
    subst hrp
    exact ⟨hints r hr, pyDictGet_of_mem _ hkeys _ hp⟩

/-- Witness for C5 (the spec's own example): bindings
`nota1..nota5 ↦ 1.0..5.0`, resolver tolerance `0.5`, raw event
`(3.0, on)` — exactly `nota3` resolves, with `on = true`. -/
theorem resolver_nota3_witness :
    interfaceCallback
      (atribuiNotas ⟨initListener Unit, [], [], 1/2⟩
        [("nota1", 1), ("nota2", 2), ("nota3", 3), ("nota4", 4), ("nota5", 5)])
      ⟨3, true⟩ = ([⟨"nota3", true⟩], Option.none) := by
  rw [resolver_emits_exactly_matching_bindings
    [("nota1", 1), ("nota2", 2), ("nota3", 3), ("nota4", 4), ("nota5", 5)]
    ⟨initListener Unit, [], [], 1/2⟩ ⟨3, true⟩ rfl ?_ ?_]
  · simp only [List.filter_cons, List.filter_nil]
    norm_num
  · intro p hp
    fin_cases hp <;> norm_num [pyIntTrunc]
  · decide

/-- Helper: each `InterfaceGuitarra.start` call appends exactly one
registration to the inner listener's callback list (whatever `startOp`
then does). -/
theorem interfaceStart_listener_callbacks (ist : InterfaceGuitarraSt) :
    (interfaceStart ist).listener.callbacks
      = ist.listener.callbacks ++ [()] := by
  unfold interfaceStart startOp inputPortSetter callbackSetter
  split <;> rfl

/-- Helper: after `n` interface starts the callback list grew by `n`. -/
theorem iterate_interfaceStart_callbacks (ist : InterfaceGuitarraSt)
    (n : ℕ) :
    (interfaceStart^[n] ist).listener.callbacks.length
      = ist.listener.callbacks.length + n := by
  induction n with
  | zero => rfl
  | succ n ih =>
    rw [Function.iterate_succ_apply', interfaceStart_listener_callbacks,
      List.length_append, ih]
    simp [Nat.add_assoc]

/-- Helper: dispatching one sample to `k` registrations of the same
`_callback` lambda produces `k` times the emissions of one `_callback`
run. -/
theorem userEmissions_length_mul (ist : InterfaceGuitarraSt)
    (cur : NotaGuitarra) (l : List Unit) :
    (userEmissions ist (l.map (fun c => (c, cur)))).length
      = l.length * (interfaceCallback ist cur).1.length := by
  induction l with
  | nil => simp [userEmissions]
  | cons c rest ih =>
    simp only [List.map_cons, userEmissions, List.flatMap_cons,
      List.length_append, List.length_cons] at ih ⊢
    rw [ih]
    ring

/-- C9: `InterfaceGuitarra.start()` is not idempotent — each call appends
one more registration of `lambda x: self._callback(x)` to the inner
listener, so after `n` calls the listener holds `n` callbacks and one
accepted edge event reaches the user callback `n` times per matching
binding. -/
theorem interface_start_registers_one_callback_per_call
    (rng : ℚ) (ist₀ : InterfaceGuitarraSt) (kwargs : List (String × ℚ))
    (n : ℕ) (cur : NotaGuitarra)
    (h : mkInterfaceGuitarra rng = .ok ist₀) :
    (interfaceStart^[n] (atribuiNotas ist₀ kwargs)).listener.callbacks.length
        = n ∧
    (userEmissions (interfaceStart^[n] (atribuiNotas ist₀ kwargs))
        ((interfaceStart^[n] (atribuiNotas ist₀ kwargs)).listener.callbacks.map
          (fun c => (c, cur)))).length
      = n * (interfaceCallback (interfaceStart^[n] (atribuiNotas ist₀ kwargs))
          cur).1.length := by
  have hempty : ist₀.listener.callbacks = [] := by
    unfold mkInterfaceGuitarra at h
    split at h
    · rw [Except.ok.injEq] at h
      subst h
      rfl
    · exact Except.noConfusion h
  have hlen :
      (interfaceStart^[n] (atribuiNotas ist₀ kwargs)).listener.callbacks.length
        = n := by
    rw [iterate_interfaceStart_callbacks]
    have : (atribuiNotas ist₀ kwargs).listener.callbacks = [] := hempty
    rw [this]
    simp
  refine ⟨hlen, ?_⟩
  rw [userEmissions_length_mul, hlen]

/-- Witness for C9: two `start()` calls on a configured interface leave two
registered callbacks, and an accepted edge with one matching binding
reaches the user callback `2 × 1` times. -/
theorem interface_start_twice_witness :
    (interfaceStart^[2] (atribuiNotas ⟨initListener Unit, [], [], 1/2⟩
        [("nota1", 1)])).listener.callbacks.length = 2 ∧
    (userEmissions
        (interfaceStart^[2] (atribuiNotas ⟨initListener Unit, [], [], 1/2⟩
          [("nota1", 1)]))
        ((interfaceStart^[2] (atribuiNotas ⟨initListener Unit, [], [], 1/2⟩
          [("nota1", 1)])).listener.callbacks.map (fun c => (c, ⟨1, true⟩)))).length
      = 2 * (interfaceCallback
          (interfaceStart^[2] (atribuiNotas ⟨initListener Unit, [], [], 1/2⟩
            [("nota1", 1)])) ⟨1, true⟩).1.length :=
  interface_start_registers_one_callback_per_call (1/2) _ [("nota1", 1)] 2
    ⟨1, true⟩
    (by unfold mkInterfaceGuitarra; rw [if_pos (by norm_num)])

/-- C10: configuring a binding whose code has a non-zero fractional part
(here `nota1 ↦ 1.5`) succeeds — `int()` truncates `1.5` to `1` instead of
rejecting it — but then any raw sample within the resolver tolerance of
the truncated value `1` makes `_callback` raise an uncaught `KeyError`
when it looks the `int` `1` up in the float-keyed binding dict, instead of
emitting anything. -/
theorem fractional_binding_truncates_then_keyerror
    (rng : ℚ) (ist₀ : InterfaceGuitarraSt) (c : ℚ) (b : Bool)
    (h : mkInterfaceGuitarra rng = .ok ist₀)
    (hc : |c - 1| ≤ rng) :
    (atribuiNotas ist₀ [("nota1", 3/2)]).valores = [1] ∧
    interfaceCallback (atribuiNotas ist₀ [("nota1", 3/2)]) ⟨c, b⟩ =
      ([], some PyErr.keyError) := by
  have htr : pyIntTrunc (3/2) = 1 := by
    unfold pyIntTrunc
    norm_num
    decide
  unfold mkInterfaceGuitarra at h
  split at h
  · rw [Except.ok.injEq] at h
    subst h
    have hval : (atribuiNotas ⟨initListener Unit, [], [], rng⟩
        [("nota1", 3/2)]).valores = [1] := by
      simp [atribuiNotas, baseAtribuiNotas, dictInsert, htr]
    have hdic : (atribuiNotas ⟨initListener Unit, [], [], rng⟩
        [("nota1", 3/2)]).dicionario = [(3/2, "nota1")] := by
      simp [atribuiNotas, baseAtribuiNotas, dictInsert]
    have hrng : (atribuiNotas ⟨initListener Unit, [], [], rng⟩
        [("nota1", 3/2)]).range = rng := rfl
    refine ⟨hval, ?_⟩
    unfold interfaceCallback
    rw [hval, hdic, hrng]
    have hget : pyDictGet [((3:ℚ)/2, "nota1")] 1 = Option.none := by
      unfold pyDictGet
      have hne : ¬ ((fun r : ℚ × String => decide (r.1 = (1:ℚ)))
          ((3:ℚ)/2, "nota1") = true) := by
        simp only [decide_eq_true_eq]
        norm_num
      have hstep : List.find? (fun r : ℚ × String => decide (r.1 = (1:ℚ)))
          [((3:ℚ)/2, "nota1")]
            = List.find? (fun r : ℚ × String => decide (r.1 = (1:ℚ))) [] :=
        List.find?_cons_of_neg [] hne
      rw [hstep]
      rfl
    simp only [resolveLoop, Int.cast_one]
    rw [if_pos hc, hget]
  · exact Except.noConfusion h

/-- Witness for C10: tolerance `0.5`, binding `nota1 ↦ 1.5`, raw sample
`(1.0, on)` — configuration stored the truncated code `1`, and the
callback raises `KeyError` emitting nothing. -/
theorem fractional_binding_witness :
    (atribuiNotas ⟨initListener Unit, [], [], 1/2⟩
        [("nota1", 3/2)]).valores = [1] ∧
    interfaceCallback (atribuiNotas ⟨initListener Unit, [], [], 1/2⟩
        [("nota1", 3/2)]) ⟨1, true⟩ = ([], some PyErr.keyError) :=
  fractional_binding_truncates_then_keyerror (1/2) _ 1 true
    (by unfold mkInterfaceGuitarra; rw [if_pos (by norm_num)])
    (by norm_num)
